import Mathlib

/-!
Verification of the rAPId repository's natural-language specification
against its sources.

Part 1 embeds the onboarding wizard (`src/web/app/page.tsx`): its form
state, step list, step transitions and command generation, translated
statement by statement from the TypeScript source.

Part 2 models the discovery-to-execution core (normalizer, planner,
execution engine).  That core's implementation is not among the source
files of this checkout (only its setup script and the wizard are), so
those definitions are modelled from the specification text, as their
doc comments state.
-/

/-- The wizard's form state (`interface FormData`, page.tsx:30-38).
The TypeScript field `unsafe` is a Lean keyword and is called
`unsafeFlag` here; `concurrency` and `delayMs` are TS numbers holding
integers. -/
structure FormData where
  repoUrl : String
  baseUrl : String
  authHeader : String
  unsafeFlag : Bool
  ollamaModel : String
  concurrency : Int
  delayMs : Int
deriving DecidableEq

/-- The fixed step list (`const steps = [...]`, page.tsx:40). -/
def steps : List String :=
  ["welcome", "prerequisites", "clone", "setup", "configure", "consent", "run", "results"]

/-- The initial form state passed to `useState<FormData>` (page.tsx:48-56). -/
def initialFormData : FormData :=
  { repoUrl := "", baseUrl := "", authHeader := "",
    unsafeFlag := false, ollamaModel := "llama3.2:latest",
    concurrency := 3, delayMs := 200 }

/-- `generateCommand` (page.tsx:79-86): builds the CLI command by template
interpolation, then appends ` --auth-header "..."` when `authHeader` is
truthy (a nonempty string) and ` --unsafe` when `unsafe` is true. -/
def generateCommand (fd : FormData) : String :=
  let cmd := "source .venv/bin/activate && python3 -m secagent.cli --repo \""
    ++ fd.repoUrl ++ "\" --base-url \"" ++ fd.baseUrl
    ++ "\" --ollama-model \"" ++ fd.ollamaModel
    ++ "\" --concurrency " ++ toString fd.concurrency
    ++ " --delay-ms " ++ toString fd.delayMs ++ " --verbose"
  let cmd := if fd.authHeader = "" then cmd
    else cmd ++ " --auth-header \"" ++ fd.authHeader ++ "\""
  let cmd := if fd.unsafeFlag then cmd ++ " --unsafe" else cmd
  cmd

/-- The `disabled` condition of the configure step's Continue button
(page.tsx:581): `!formData.repoUrl || !formData.baseUrl`; a JS string is
falsy exactly when it is empty. -/
def configureContinueDisabled (fd : FormData) : Bool :=
  (fd.repoUrl == "") || (fd.baseUrl == "")

/-- JavaScript `Array.prototype.indexOf`: the index of the first
occurrence, `-1` when absent (page.tsx:65,73 use it on `steps`). -/
def tsIndexOf (l : List String) (s : String) : Int :=
  if s ∈ l then (l.indexOf s : Int) else -1

/-- `nextStep` (page.tsx:64-70): advance to `steps[currentIndex + 1]` when
`currentIndex < steps.length - 1`, otherwise leave the step unchanged.
(The `completedSteps` bookkeeping of the source does not affect the
current step.)  The `getD` default is unreachable under the guard. -/
def nextStep (c : String) : String :=
  let i := tsIndexOf steps c
  if i < (steps.length : Int) - 1 then steps.getD (i + 1).toNat c else c

/-- `prevStep` (page.tsx:72-77): go back to `steps[currentIndex - 1]` when
`currentIndex > 0`, otherwise leave the step unchanged. -/
def prevStep (c : String) : String :=
  let i := tsIndexOf steps c
  if i > 0 then steps.getD (i - 1).toNat c else c

/-- The events that change the wizard's current step: the Continue /
Back buttons (`nextStep` / `prevStep`), and the results screen's
"Run Another Analysis" reset (`setCurrentStep("welcome")`,
page.tsx:800-813). -/
inductive WizOp where
  | next
  | prev
  | reset
deriving DecidableEq

/-- The effect of one wizard event on the current step. -/
def stepOp : WizOp → String → String
  | .next, s => nextStep s
  | .prev, s => prevStep s
  | .reset, _ => "welcome"

/-- Run a sequence of wizard events from a given step. -/
def wizardRunFrom (s : String) (ops : List WizOp) : String :=
  ops.foldl (fun t op => stepOp op t) s

/-- Run a sequence of wizard events from the initial step `"welcome"`. -/
def wizardRun (ops : List WizOp) : String :=
  wizardRunFrom "welcome" ops

/-- All steps a run of the wizard passes through, the starting step and
the final one included. -/
def wizardTrace (s : String) : List WizOp → List String
  | [] => [s]
  | op :: ops => s :: wizardTrace (stepOp op s) ops

/-! ### Helper lemmas on strings and suffixes -/

theorem string_data_append (s t : String) : (s ++ t).data = s.data ++ t.data := rfl

theorem suffix_right_of_length_le {l a b : List Char} (h : l <:+ a ++ b)
    (hl : l.length ≤ b.length) : l <:+ b := by
  obtain ⟨t, ht⟩ := h
  have hlen : t.length + l.length = a.length + b.length := by
    simpa using congrArg List.length ht
  have hta : a.length ≤ t.length := by omega
  have h1 : l = (a ++ b).drop t.length := by
    rw [← ht]
    simp
  have h2 : (a ++ b).drop t.length = b.drop (t.length - a.length) := by
    rw [List.drop_append_eq_append_drop, List.drop_eq_nil_of_le hta, List.nil_append]
  rw [h1, h2]
  exact List.drop_suffix _ _

theorem getLast?_of_suffix {p l : List Char} (h : p <:+ l) (hp : p ≠ []) :
    l.getLast? = p.getLast? := by
  obtain ⟨t, rfl⟩ := h
  exact List.getLast?_append_of_ne_nil _ hp

/-- Every wizard event maps a step of the fixed list to a step of the list. -/
theorem stepOp_mem {op : WizOp} {s : String} (hs : s ∈ steps) : stepOp op s ∈ steps := by
  cases op <;> fin_cases hs <;> decide

/-- Any event sequence run from a listed step ends on a listed step. -/
theorem wizardRunFrom_mem : ∀ (ops : List WizOp) (s : String), s ∈ steps →
    wizardRunFrom s ops ∈ steps := by
  intro ops
  induction ops with
  | nil => intro s hs; simpa [wizardRunFrom] using hs
  | cons op ops ih =>
    intro s hs
    simpa [wizardRunFrom, List.foldl_cons] using ih (stepOp op s) (stepOp_mem hs)

/-! ### C3: the `--unsafe` flag in the generated command -/

/-- A form state falsifying C3 as stated: with the unsafe option false but
the repository URL text equal to `--unsafe`, the generated command does
contain the substring `--unsafe` (inside the quoted `--repo` argument). -/
def c3CexFormData : FormData :=
  { initialFormData with repoUrl := "--unsafe", baseUrl := "https://api.example.com" }

/-- C3, counterexample: it is not the case that the generated command
contains `--unsafe` iff the unsafe option is true — `c3CexFormData` has
`unsafe = false`, yet its command contains `--unsafe` as a substring,
because the free-text repository URL is interpolated into the command
verbatim. -/
theorem c3_counterexample :
    ¬(("--unsafe".data <:+: (generateCommand c3CexFormData).data) ↔
      c3CexFormData.unsafeFlag = true) := by decide

/-- C3, amended: the command generated by the wizard ends with the
appended flag ` --unsafe` if and only if the unsafe option is true; in
particular with unsafe left at its default (false) the flag is never
appended (though the substring `--unsafe` can still occur inside a
quoted free-text field, as the counterexample shows). -/
theorem c3_unsafe_flag_appended_iff (fd : FormData) :
    ((" --unsafe").data <:+ (generateCommand fd).data) ↔ fd.unsafeFlag = true := by
  cases hu : fd.unsafeFlag with
  | true =>
    simp only [generateCommand, hu, if_true, iff_true]
    exact ⟨_, (string_data_append _ _).symm⟩
  | false =>
    simp only [generateCommand, hu, if_false, Bool.false_eq_true, iff_false]
    intro h
    by_cases ha : fd.authHeader = ""
    · rw [if_pos ha, string_data_append] at h
      have h2 : (" --unsafe").data <:+ (" --verbose").data :=
        suffix_right_of_length_le h (by decide)
      exact absurd h2 (by decide)
    · rw [if_neg ha] at h
      have h2 := getLast?_of_suffix h (by decide)
      rw [string_data_append, List.getLast?_append_of_ne_nil _ (by decide)] at h2
      exact absurd h2 (by decide)

/-! ### C4: the wizard's initial configuration state -/

/-- C4, counterexample: the initial form state does not equal the spec's
documented CLI defaults, because its AI model name is
`"llama3.2:latest"`, not `"llama3"`. -/
theorem c4_counterexample :
    ¬(initialFormData.unsafeFlag = false ∧ initialFormData.concurrency = 3 ∧
      initialFormData.delayMs = 200 ∧ initialFormData.ollamaModel = "llama3") := by decide

/-- C4, amended: the wizard's initial configuration state has unsafe =
false, concurrency = 3 and delay-ms = 200 as the spec documents, but its
AI model name defaults to `"llama3.2:latest"` rather than `"llama3"`. -/
theorem c4_initial_defaults :
    initialFormData.unsafeFlag = false ∧ initialFormData.concurrency = 3 ∧
    initialFormData.delayMs = 200 ∧
    initialFormData.ollamaModel = "llama3.2:latest" := by decide

/-! ### C5: required configuration values gate the configure step -/

/-- C5: whenever the repository URL or the API base URL is empty, the
configure step's Continue button is disabled, blocking progression past
the configure step before both required values are supplied. -/
theorem c5_required_fields_gate (fd : FormData)
    (h : fd.repoUrl = "" ∨ fd.baseUrl = "") :
    configureContinueDisabled fd = true := by
  rcases h with h | h <;> simp [configureContinueDisabled, h]

/-- Witness for C5 at the initial form state, whose repository URL is empty. -/
theorem c5_required_fields_gate_witness :
    configureContinueDisabled initialFormData = true :=
  c5_required_fields_gate initialFormData (Or.inl rfl)

/-! ### C8: the current step never leaves the eight-step list -/

/-- C8: for every sequence of wizard events the current step stays an
element of the fixed eight-step list, `nextStep` on the final step
`"results"` and `prevStep` on the first step `"welcome"` leave the step
unchanged, and the step's index stays in the range 0..7. -/
theorem c8_step_stays_in_list :
    (∀ ops : List WizOp, wizardRun ops ∈ steps) ∧
    nextStep "results" = "results" ∧ prevStep "welcome" = "welcome" ∧
    (∀ ops : List WizOp,
      0 ≤ tsIndexOf steps (wizardRun ops) ∧ tsIndexOf steps (wizardRun ops) < 8) := by
  refine ⟨fun ops => wizardRunFrom_mem ops "welcome" (by decide), by decide, by decide,
    fun ops => ?_⟩
  have h : wizardRun ops ∈ steps := wizardRunFrom_mem ops "welcome" (by decide)
  have hlt : steps.indexOf (wizardRun ops) < steps.length := List.indexOf_lt_length.mpr h
  rw [tsIndexOf, if_pos h]
  have h8 : steps.length = 8 := rfl
  omega

/-! ### C9: the run step is unreachable without passing consent -/

/-- Strengthened invariant for C9: if a run of the wizard from a listed
step ends on `"run"` or `"results"`, either `"consent"` appears in its
trace or the run already started on `"run"` or `"results"`. -/
theorem wizard_run_results_visited : ∀ (ops : List WizOp) (s : String), s ∈ steps →
    (wizardRunFrom s ops = "run" ∨ wizardRunFrom s ops = "results") →
    "consent" ∈ wizardTrace s ops ∨ s = "run" ∨ s = "results" := by
  intro ops
  induction ops with
  | nil =>
    intro s hs h
    right
    simpa [wizardRunFrom] using h
  | cons op ops ih =>
    intro s hs h
    have h' : wizardRunFrom (stepOp op s) ops = "run" ∨
        wizardRunFrom (stepOp op s) ops = "results" := by
      simpa [wizardRunFrom, List.foldl_cons] using h
    rcases ih (stepOp op s) (stepOp_mem hs) h' with hc | hrr
    · exact Or.inl (List.mem_cons_of_mem _ hc)
    · cases op <;> fin_cases hs <;>
        first
          | exact absurd hrr (by decide)
          | exact Or.inr (by decide)
          | exact Or.inl (List.mem_cons_self _ _)

/-- C9: in every wizard run that starts at `"welcome"` (the only step
transitions being nextStep, prevStep and the reset to `"welcome"`), if
the current step is `"run"` then `"consent"` was current earlier: the
run screen is unreachable without passing through the consent screen. -/
theorem c9_consent_precedes_run (ops : List WizOp) (h : wizardRun ops = "run") :
    "consent" ∈ wizardTrace "welcome" ops := by
  rcases wizard_run_results_visited ops "welcome" (by decide) (Or.inl h) with hc | hrr
  · exact hc
  · exact absurd hrr (by decide)

/-- Witness for C9: six Continue clicks reach the run step, and consent
indeed appears in the trace. -/
theorem c9_consent_precedes_run_witness :
    "consent" ∈ wizardTrace "welcome" [WizOp.next, .next, .next, .next, .next, .next] :=
  c9_consent_precedes_run _ (by decide)

/-! ### C10: the concurrency field's onChange handler -/

/-- Modelled from ECMAScript: the whitespace characters `parseInt` skips
(the common subset: space, tab, line feed, carriage return, vertical
tab, form feed, no-break space). -/
def jsWhitespace (c : Char) : Bool :=
  c = ' ' || c = '\t' || c = '\n' || c = '\r' || c.toNat = 11 || c.toNat = 12 || c.toNat = 160

/-- The value of a digit character in the given radix (10 or 16), `none`
when the character is not a digit of that radix. -/
def digitValue (radix : Nat) (c : Char) : Option Nat :=
  if '0' ≤ c ∧ c ≤ '9' ∧ c.toNat - '0'.toNat < radix then some (c.toNat - '0'.toNat)
  else if radix = 16 ∧ 'a' ≤ c ∧ c ≤ 'f' then some (c.toNat - 'a'.toNat + 10)
  else if radix = 16 ∧ 'A' ≤ c ∧ c ≤ 'F' then some (c.toNat - 'A'.toNat + 10)
  else none

/-- ECMAScript `Number.parseInt` with no radix argument, as the
concurrency field's onChange handler calls it (page.tsx:550): skip
leading whitespace, read an optional sign, let a `0x`/`0X` prefix select
hexadecimal (decimal otherwise), convert the longest digit prefix; no
digits yields NaN, rendered here as `none`. -/
def jsParseInt (s : String) : Option Int :=
  let cs := s.data.dropWhile jsWhitespace
  let signAndRest : Int × List Char :=
    match cs with
    | '-' :: rest => (-1, rest)
    | '+' :: rest => (1, rest)
    | _ => (1, cs)
  let radixAndRest : Nat × List Char :=
    match signAndRest.2 with
    | '0' :: 'x' :: rest => (16, rest)
    | '0' :: 'X' :: rest => (16, rest)
    | _ => (10, signAndRest.2)
  let radix := radixAndRest.1
  let ds := radixAndRest.2.takeWhile (fun c => (digitValue radix c).isSome)
  if ds = [] then none
  else some (signAndRest.1 *
    (ds.foldl (fun acc c => acc * radix + (digitValue radix c).getD 0) 0 : Nat))

/-- JavaScript `x || d` for a number-or-NaN left operand: NaN and 0 are
falsy, any other number is returned unchanged. -/
def jsOrNumber (x : Option Int) (d : Int) : Int :=
  match x with
  | none => d
  | some v => if v = 0 then d else v

/-- The concurrency stored by the configure step's onChange handler
(page.tsx:549-551): `Number.parseInt(e.target.value) || 3`. -/
def concurrencyOnChange (s : String) : Int := jsOrNumber (jsParseInt s) 3

/-- C10: for every input string typed into the concurrency field, the
stored concurrency is `parseInt` of the string when that parse yields a
nonzero number and 3 otherwise (NaN — e.g. empty or non-numeric input —
or zero); the input element's 1–10 min/max attributes are not enforced
on the stored value, so the out-of-range `"50"` is stored as 50. -/
theorem c10_concurrency_on_change :
    (∀ s n, jsParseInt s = some n → n ≠ 0 → concurrencyOnChange s = n) ∧
    (∀ s, jsParseInt s = none ∨ jsParseInt s = some 0 → concurrencyOnChange s = 3) ∧
    concurrencyOnChange "" = 3 ∧ concurrencyOnChange "abc" = 3 ∧
    concurrencyOnChange "50" = 50 := by
  refine ⟨?_, ?_, by decide, by decide, by decide⟩
  · intro s n h hn
    simp [concurrencyOnChange, jsOrNumber, h, hn]
  · intro s h
    rcases h with h | h <;> simp [concurrencyOnChange, jsOrNumber, h]

/-!
### Part 2: the discovery-to-execution core

The core pipeline (`secagent`) is not among this checkout's source
files — only its setup script, README and the wizard are — so the
definitions below are modelled from the specification text (spec.md
sections 3, 4.2, 4.3, 4.4 and 5), as each doc comment notes.
-/

/-- Modelled from the spec: an EndpointCandidate produced by Discovery —
method, path template, source detector, declared auth requirement and
parameter names (spec.md section 3).  The missing code is the discovery
module of the secagent core. -/
structure EndpointCandidate where
  method : String
  path : String
  sourceDetector : String
  authRequired : Bool
  params : List String
deriving DecidableEq

/-- Modelled from the spec: a canonical Endpoint — method plus normalized
path template, merged auth requirement and unioned parameter-name set
(spec.md section 3).  The missing code is the normalizer module of the
secagent core. -/
structure Endpoint where
  method : String
  path : String
  authRequired : Bool
  params : List String
deriving DecidableEq

/-- Modelled from the spec: a path segment that is a parameter
placeholder (`{id}`, `:id` or `<id>` style) is replaced by the
placeholder token `{param}` (spec.md section 4.2). -/
def normalizeSegment (seg : String) : String :=
  if seg.startsWith "\x7b" || seg.startsWith ":" || seg.startsWith "<" then "{param}" else seg

/-- Modelled from the spec: path normalization — drop the query string,
ignore trailing slashes, replace path parameters by `{param}`
(spec.md section 4.2). -/
def normalizePath (p : String) : String :=
  let noQuery := (p.splitOn "?").headD p
  let noTrail := String.mk (noQuery.data.reverse.dropWhile (· = '/')).reverse
  String.intercalate "/" ((noTrail.splitOn "/").map normalizeSegment)

/-- Modelled from the spec: the normalized grouping key — uppercased
method and normalized path template (spec.md section 4.2). -/
def candKey (c : EndpointCandidate) : String × String := (c.method.toUpper, normalizePath c.path)

/-- The canonical list order on keys: by method, then by path
(spec.md section 4.2). -/
def keyLe (a b : String × String) : Prop :=
  a.1 < b.1 ∨ (a.1 = b.1 ∧ a.2 ≤ b.2)

instance : DecidableRel keyLe := fun a b => by
  unfold keyLe
  infer_instance

instance : IsTrans (String × String) keyLe := ⟨by
  intro a b c hab hbc
  rcases hab with h1 | ⟨h1, h2⟩ <;> rcases hbc with h3 | ⟨h3, h4⟩
  · exact Or.inl (lt_trans h1 h3)
  · exact Or.inl (h3 ▸ h1)
  · exact Or.inl (by rw [h1]; exact h3)
  · exact Or.inr ⟨h1.trans h3, le_trans h2 h4⟩⟩

instance : IsAntisymm (String × String) keyLe := ⟨by
  intro a b hab hba
  rcases hab with h1 | ⟨h1, h2⟩ <;> rcases hba with h3 | ⟨h3, h4⟩
  · exact absurd (lt_trans h1 h3) (lt_irrefl _)
  · rw [h3] at h1
    exact absurd h1 (lt_irrefl _)
  · rw [h1] at h3
    exact absurd h3 (lt_irrefl _)
  · exact Prod.ext h1 (le_antisymm h2 h4)⟩

instance : IsTotal (String × String) keyLe := ⟨by
  intro a b
  rcases lt_trichotomy a.1 b.1 with h | h | h
  · exact Or.inl (Or.inl h)
  · rcases le_total a.2 b.2 with h2 | h2
    · exact Or.inl (Or.inr ⟨h, h2⟩)
    · exact Or.inr (Or.inr ⟨h.symm, h2⟩)
  · exact Or.inr (Or.inl h)⟩

/-- Modelled from the spec: the canonical Endpoint for one group key —
auth requirement is the logical OR over the group, parameter names are
unioned (held canonically sorted, the spec treats them as a set)
(spec.md section 4.2). -/
def endpointForKey (cs : List EndpointCandidate) (k : String × String) : Endpoint :=
  let group := cs.filter (fun c => candKey c = k)
  { method := k.1, path := k.2,
    authRequired := group.any (·.authRequired),
    params := List.insertionSort (· ≤ ·) ((group.flatMap (·.params)).dedup) }

/-- Modelled from the spec: the Normalizer — group candidates by
normalized key, emit one Endpoint per group in canonical (method, then
path) order (spec.md section 4.2).  The missing code is the normalizer
module of the secagent core. -/
def normalizeEndpoints (cs : List EndpointCandidate) : List Endpoint :=
  (List.insertionSort keyLe ((cs.map candKey).dedup)).map (endpointForKey cs)

/-! ### C2: uniqueness of (method, normalized path template) -/

/-- C2: for every Endpoint inventory produced by the Normalizer, the
(method, normalized path template) pairs are pairwise distinct: no two
Endpoints in the output share both method and path template. -/
theorem c2_endpoint_key_unique (cs : List EndpointCandidate) :
    (normalizeEndpoints cs).Pairwise (fun a b => a.method ≠ b.method ∨ a.path ≠ b.path) := by
  have hkeys : (normalizeEndpoints cs).map (fun e => (e.method, e.path))
      = List.insertionSort keyLe ((cs.map candKey).dedup) := by
    rw [normalizeEndpoints, List.map_map]
    exact List.map_id _
  have hnodup : (List.insertionSort keyLe ((cs.map candKey).dedup)).Nodup :=
    ((List.perm_insertionSort keyLe _).nodup_iff).mpr (List.nodup_dedup _)
  rw [← hkeys] at hnodup
  have hpw := List.pairwise_map.mp hnodup
  exact hpw.imp (by
    intro a b hne
    by_cases hm : a.method = b.method
    · right
      intro hpath
      exact hne (by rw [hm, hpath])
    · exact Or.inl hm)

/-! ### The pipeline up to planning -/

/-- Modelled from the spec: a file of the read-only RepositorySnapshot —
relative path, content and detected language (spec.md section 3). -/
structure SourceFile where
  path : String
  content : String
  language : String
deriving DecidableEq

/-- Modelled from the spec: the immutable RepositorySnapshot created at
ingestion (spec.md section 3).  The missing code is the ingestion module
of the secagent core. -/
structure RepositorySnapshot where
  files : List SourceFile
  repoUrl : String
  commit : String
deriving DecidableEq

/-- Modelled from the spec: the RunContext — concurrency limit,
inter-request delay, timeout, unsafe flag, auth header, base URL and
model name, initialized once and passed explicitly (spec.md section 3).
The CLI field `unsafe` is a Lean keyword and is called `unsafeFlag`. -/
structure RunContext where
  concurrency : Nat
  delayMs : Nat
  timeoutMs : Nat
  unsafeFlag : Bool
  authHeader : String
  baseUrl : String
  ollamaModel : String
deriving DecidableEq

/-- Modelled from the spec: a detector implements
`detect(snapshot) -> sequence of EndpointCandidate` (spec.md
section 4.1); its body is unspecified, so a detector is any such
function. -/
def Detector : Type := RepositorySnapshot → List EndpointCandidate

/-- Modelled from the spec: Discovery runs the registered detectors and
concatenates their candidate sequences (spec.md section 4.1).  The
missing code is the discovery module of the secagent core. -/
def discover (detectors : List Detector) (snap : RepositorySnapshot) : List EndpointCandidate :=
  detectors.flatMap (fun d => d snap)

/-- Modelled from the spec: the three vulnerability classes
(spec.md section 3). -/
inductive VulnClass where
  | bola
  | authBypass
  | jwtManipulation
deriving DecidableEq

/-- Modelled from the spec: the payload mutations of the three test
classes (spec.md section 4.3); the random-UUID mutation is represented
symbolically, the value being sampled only at execution, which keeps
planning deterministic as section 8 requires. -/
inductive Mutation where
  | baseline
  | idDecrement
  | idIncrement
  | randomUuid
  | stripAuthHeader
  | malformedAuthHeader
  | jwtAlgNone
  | jwtSignatureBlank
  | jwtExpiryFuture
deriving DecidableEq

/-- Modelled from the spec: a TestCase — endpoint reference,
vulnerability class, mutation, the mutating (unsafe) tag, and baseline
linkage (spec.md section 3).  The missing code is the planner module of
the secagent core. -/
structure TestCase where
  method : String
  path : String
  vulnClass : VulnClass
  mutation : Mutation
  mutating : Bool
  requiresBaseline : Bool
deriving DecidableEq

/-- The HTTP verbs the spec treats as non-mutating (spec.md
section 4.3: anything other than GET/HEAD/OPTIONS is mutating). -/
def safeVerbs : List String := ["GET", "HEAD", "OPTIONS"]

/-- Modelled from the spec: verb-based mutation detection, the
documented contract (spec.md sections 4.3 and 9). -/
def isMutatingVerb (m : String) : Bool := !(safeVerbs.contains m)

/-- Modelled from the spec: a path parameter resembling an identifier
(spec.md section 4.3). -/
def looksLikeId (p : String) : Bool :=
  p == "id" || p.endsWith "_id" || p.endsWith "Id" || p == "uuid"

/-- Modelled from the spec: a UUID-shaped parameter (spec.md
section 4.3). -/
def looksLikeUuid (p : String) : Bool :=
  p == "uuid" || p.endsWith "_uuid" || p.endsWith "Uuid"

/-- Build one TestCase for an endpoint: the mutating tag follows the
verb heuristic (spec.md section 4.3). -/
def mkCase (e : Endpoint) (vc : VulnClass) (mu : Mutation) (base : Bool) : TestCase :=
  { method := e.method, path := e.path, vulnClass := vc, mutation := mu,
    mutating := isMutatingVerb e.method, requiresBaseline := base }

/-- Modelled from the spec: BOLA/IDOR cases — for endpoints with an
identifier-like parameter, a baseline case first, then the mutated
cases, the baseline preceding its dependents (spec.md section 4.3). -/
def bolaCases (e : Endpoint) : List TestCase :=
  if e.params.any looksLikeId then
    [mkCase e .bola .baseline false, mkCase e .bola .idDecrement true,
     mkCase e .bola .idIncrement true] ++
    (if e.params.any looksLikeUuid then [mkCase e .bola .randomUuid true] else [])
  else []

/-- Modelled from the spec: AuthBypass cases for auth-required
endpoints — stripped and malformed Authorization header (spec.md
section 4.3). -/
def authBypassCases (e : Endpoint) : List TestCase :=
  if e.authRequired then
    [mkCase e .authBypass .stripAuthHeader false,
     mkCase e .authBypass .malformedAuthHeader false]
  else []

/-- Modelled from the spec: whether the configured auth header carries a
JWT — three dot-separated segments (spec.md section 4.3). -/
def authHeaderCarriesJwt (h : String) : Bool := (h.splitOn ".").length == 3

/-- Modelled from the spec: JWT-manipulation cases, generated only when
the configured auth header carries a JWT (spec.md section 4.3). -/
def jwtCases (ctx : RunContext) (e : Endpoint) : List TestCase :=
  if authHeaderCarriesJwt ctx.authHeader then
    [mkCase e .jwtManipulation .jwtAlgNone false,
     mkCase e .jwtManipulation .jwtSignatureBlank false,
     mkCase e .jwtManipulation .jwtExpiryFuture false]
  else []

/-- All cases one endpoint expands into, per vulnerability class. -/
def casesForEndpoint (ctx : RunContext) (e : Endpoint) : List TestCase :=
  bolaCases e ++ authBypassCases e ++ jwtCases ctx e

/-- Modelled from the spec: the Test Planner — expand each endpoint, and
exclude mutating TestCases from the plan entirely unless
RunContext.unsafe is true (spec.md section 4.3, the enforced
invariant).  The missing code is the planner module of the secagent
core. -/
def planTestCases (ctx : RunContext) (eps : List Endpoint) : List TestCase :=
  let expanded := eps.flatMap (casesForEndpoint ctx)
  if ctx.unsafeFlag then expanded
  else expanded.filter (fun tc => !tc.mutating)

/-- Modelled from the spec: the pipeline up to planning — Discovery,
Normalization, Planning, computed once, sequentially (spec.md
sections 2 and 5). -/
def runPipeline (detectors : List Detector) (snap : RepositorySnapshot)
    (ctx : RunContext) : List Endpoint × List TestCase :=
  let inv := normalizeEndpoints (discover detectors snap)
  (inv, planTestCases ctx inv)

/-! ### C6: determinism of the pipeline up to planning -/

/-- Two permuted candidate lists have equal `any` over any predicate. -/
theorem perm_any {l₁ l₂ : List EndpointCandidate} (h : l₁.Perm l₂)
    (f : EndpointCandidate → Bool) : l₁.any f = l₂.any f := by
  rw [Bool.eq_iff_iff, List.any_eq_true, List.any_eq_true]
  exact ⟨fun ⟨x, hx, hfx⟩ => ⟨x, h.mem_iff.mp hx, hfx⟩,
    fun ⟨x, hx, hfx⟩ => ⟨x, h.mem_iff.mpr hx, hfx⟩⟩

/-- The Normalizer's output does not depend on the order in which the
detectors produced the candidates: permuting the candidate list leaves
the endpoint inventory unchanged. -/
theorem normalizeEndpoints_perm_invariant {cs cs' : List EndpointCandidate}
    (hp : cs.Perm cs') : normalizeEndpoints cs = normalizeEndpoints cs' := by
  have hkeys : List.insertionSort keyLe ((cs.map candKey).dedup)
      = List.insertionSort keyLe ((cs'.map candKey).dedup) := by
    apply List.eq_of_perm_of_sorted (r := keyLe)
    · exact (List.perm_insertionSort _ _).trans
        (((hp.map candKey).dedup).trans (List.perm_insertionSort _ _).symm)
    · exact List.sorted_insertionSort _ _
    · exact List.sorted_insertionSort _ _
  rw [normalizeEndpoints, normalizeEndpoints, hkeys]
  apply List.map_congr_left
  intro k _
  have hg : (cs.filter (fun c => decide (candKey c = k))).Perm
      (cs'.filter (fun c => decide (candKey c = k))) := hp.filter _
  rw [endpointForKey, endpointForKey]
  have hauth : (cs.filter (fun c => decide (candKey c = k))).any (·.authRequired)
      = (cs'.filter (fun c => decide (candKey c = k))).any (·.authRequired) :=
    perm_any hg _
  have hparams : List.insertionSort (· ≤ ·)
        (((cs.filter (fun c => decide (candKey c = k))).flatMap (·.params)).dedup)
      = List.insertionSort (· ≤ ·)
        (((cs'.filter (fun c => decide (candKey c = k))).flatMap (·.params)).dedup) := by
    apply List.eq_of_perm_of_sorted (r := ((· ≤ ·) : String → String → Prop))
    · exact (List.perm_insertionSort _ _).trans
        (((hg.flatMap_right (·.params)).dedup).trans (List.perm_insertionSort _ _).symm)
    · exact List.sorted_insertionSort _ _
    · exact List.sorted_insertionSort _ _
  rw [hauth, hparams]

/-- C6: the pipeline up to planning is a deterministic function of the
RepositorySnapshot and the RunContext — running it twice over the same
inputs with unsafe = false produces an identical Endpoint inventory and
an identical TestCase plan, including ordering; moreover the inventory
does not even depend on the order in which candidates were produced. -/
theorem c6_pipeline_deterministic :
    (∀ (detectors : List Detector) (snap : RepositorySnapshot) (ctx : RunContext),
      ctx.unsafeFlag = false →
      runPipeline detectors snap ctx = runPipeline detectors snap ctx) ∧
    (∀ cs cs' : List EndpointCandidate, cs.Perm cs' →
      normalizeEndpoints cs = normalizeEndpoints cs') :=
  ⟨fun _ _ _ _ => rfl, fun _ _ hp => normalizeEndpoints_perm_invariant hp⟩

/-! ### The Execution Engine -/

/-- Modelled from the spec: one worker of the bounded pool, idle or busy
with a request in flight (spec.md sections 4.4 and 5). -/
inductive WorkerState where
  | idle
  | busy (tc : TestCase)
deriving DecidableEq

/-- Whether a worker has a request in flight. -/
def WorkerState.isBusy : WorkerState → Bool
  | .idle => false
  | .busy _ => true

/-- Modelled from the spec: the classification of a TestResult, plus the
hard-coded `unsafe-disabled` outcome of the engine's safe-mode gate
(spec.md sections 3 and 4.4). -/
inductive Outcome where
  | vulnerable
  | notVulnerable
  | inconclusive
  | error
  | unsafeDisabled
deriving DecidableEq

/-- Modelled from the spec: a TestResult recorded by the Execution
Engine (spec.md section 3, body digest and latency omitted as they do
not bear on the claims). -/
structure TestResult where
  testCase : TestCase
  outcome : Outcome
deriving DecidableEq

/-- Modelled from the spec: the Execution Engine's state — the work
queue being drained, the worker pool, the log of requests dispatched to
the network layer, and the recorded results (spec.md sections 4.4
and 5).  The missing code is the execution module of the secagent
core. -/
structure EngineState where
  queue : List TestCase
  workers : List WorkerState
  dispatched : List TestCase
  results : List TestResult
deriving DecidableEq

/-- Modelled from the spec: the engine starts with the full plan queued,
`concurrency` idle workers, and nothing dispatched or recorded
(spec.md section 4.4). -/
def initEngine (ctx : RunContext) (plan : List TestCase) : EngineState :=
  { queue := plan, workers := List.replicate ctx.concurrency .idle,
    dispatched := [], results := [] }

/-- The state after a worker takes the queue head and dispatches it to
the network layer. -/
def dispatchState (s : EngineState) (i : Nat) (tc : TestCase) (rest : List TestCase) :
    EngineState :=
  { queue := rest, workers := s.workers.set i (.busy tc),
    dispatched := tc :: s.dispatched, results := s.results }

/-- The state after the safe-mode gate rejects the queue head with the
hard-coded `unsafe-disabled` outcome, never dispatching it. -/
def rejectState (s : EngineState) (tc : TestCase) (rest : List TestCase) : EngineState :=
  { queue := rest, workers := s.workers, dispatched := s.dispatched,
    results := { testCase := tc, outcome := .unsafeDisabled } :: s.results }

/-- The state after a busy worker's request completes with some
classification and the worker returns to the pool. -/
def finishState (s : EngineState) (i : Nat) (tc : TestCase) (oc : Outcome) : EngineState :=
  { queue := s.queue, workers := s.workers.set i .idle, dispatched := s.dispatched,
    results := { testCase := tc, outcome := oc } :: s.results }

/-- Modelled from the spec: the Execution Engine's small-step behaviour
(spec.md sections 4.4 and 5).  An idle worker may dispatch the queue
head only past the safe-mode gate (mutating cases pass only when
RunContext.unsafe is true); a mutating case in safe mode is rejected
with the `unsafe-disabled` outcome, independent of what the Planner
already filtered; a busy worker may finish with any classification
(the network's response is nondeterministic). -/
inductive EngineStep (ctx : RunContext) : EngineState → EngineState → Prop where
  | dispatch (s : EngineState) (i : Nat) (tc : TestCase) (rest : List TestCase)
      (hq : s.queue = tc :: rest) (hw : s.workers[i]? = some .idle)
      (hgate : tc.mutating = false ∨ ctx.unsafeFlag = true) :
      EngineStep ctx s (dispatchState s i tc rest)
  | reject (s : EngineState) (tc : TestCase) (rest : List TestCase)
      (hq : s.queue = tc :: rest) (hm : tc.mutating = true) (hu : ctx.unsafeFlag = false) :
      EngineStep ctx s (rejectState s tc rest)
  | finish (s : EngineState) (i : Nat) (tc : TestCase) (oc : Outcome)
      (hw : s.workers[i]? = some (.busy tc)) :
      EngineStep ctx s (finishState s i tc oc)

/-- The engine states reachable from the initial state of a run. -/
def EngineReachable (ctx : RunContext) (plan : List TestCase) (s : EngineState) : Prop :=
  Relation.ReflTransGen (EngineStep ctx) (initEngine ctx plan) s

/-- The number of in-flight HTTP requests: the busy workers. -/
def inFlight (s : EngineState) : Nat := s.workers.countP WorkerState.isBusy

/-- The worker pool never changes size: it always has `concurrency`
workers. -/
theorem reachable_workers_length {ctx : RunContext} {plan : List TestCase}
    {s : EngineState} (h : EngineReachable ctx plan s) :
    s.workers.length = ctx.concurrency := by
  induction h with
  | refl => simp [initEngine]
  | tail _ hstep ih =>
    cases hstep with
    | dispatch i tc rest hq hw hgate => simpa [dispatchState, List.length_set] using ih
    | reject tc rest hq hm hu => simpa [rejectState] using ih
    | finish i tc oc hw => simpa [finishState, List.length_set] using ih

/-- In safe mode, every test case ever dispatched to the network layer
is non-mutating. -/
theorem reachable_dispatched_safe {ctx : RunContext} {plan : List TestCase}
    {s : EngineState} (hu : ctx.unsafeFlag = false) (h : EngineReachable ctx plan s) :
    ∀ tc ∈ s.dispatched, tc.mutating = false := by
  induction h with
  | refl => simp [initEngine]
  | tail _ hstep ih =>
    cases hstep with
    | dispatch i tc rest hq hw hgate =>
      intro tc' htc'
      rw [dispatchState] at htc'
      rcases List.mem_cons.mp htc' with rfl | hmem
      · rcases hgate with hg | hg
        · exact hg
        · rw [hu] at hg
          exact absurd hg (by decide)
      · exact ih tc' hmem
    | reject tc rest hq hm hu2 => exact ih
    | finish i tc oc hw => exact ih

/-! ### C1: the safe-mode gates -/

/-- C1: when RunContext.unsafe is false, no mutating TestCase is ever
dispatched to the network layer — the Planner excludes mutating cases
from the plan entirely, and in every reachable engine state (whatever
plan was given to the engine, the safe-mode gate being a second,
independent enforcement layer) the dispatched-request count for
mutating cases is zero. -/
theorem c1_safe_mode_gate :
    (∀ (ctx : RunContext) (eps : List Endpoint), ctx.unsafeFlag = false →
      ∀ tc ∈ planTestCases ctx eps, tc.mutating = false) ∧
    (∀ (ctx : RunContext) (plan : List TestCase) (s : EngineState),
      ctx.unsafeFlag = false → EngineReachable ctx plan s →
      s.dispatched.countP (·.mutating) = 0) := by
  constructor
  · intro ctx eps hu tc htc
    rw [planTestCases, hu] at htc
    simp only [if_false, Bool.false_eq_true, List.mem_filter] at htc
    simpa using htc.2
  · intro ctx plan s hu h
    rw [List.countP_eq_zero]
    intro tc htc
    simpa using reachable_dispatched_safe hu h tc htc

/-! ### C7: the concurrency bound -/

/-- C7: during execution, at no point in any run does the number of
in-flight HTTP requests exceed the configured `concurrency` limit of
the RunContext: the bounded worker pool has `concurrency` workers and
each in-flight request occupies one. -/
theorem c7_concurrency_bound (ctx : RunContext) (plan : List TestCase) (s : EngineState)
    (h : EngineReachable ctx plan s) : inFlight s ≤ ctx.concurrency :=
  le_of_le_of_eq (List.countP_le_length _) (reachable_workers_length h)

/-- A RunContext holding the spec's documented CLI defaults, used to
instantiate the engine theorems. -/
def specCtx : RunContext :=
  { concurrency := 3, delayMs := 200, timeoutMs := 8000, unsafeFlag := false,
    authHeader := "", baseUrl := "https://api.example.com", ollamaModel := "llama3" }

/-- Witness for C7: the initial state of a run with the default
concurrency of 3 is reachable and has at most 3 requests in flight. -/
theorem c7_concurrency_bound_witness :
    inFlight (initEngine specCtx []) ≤ specCtx.concurrency :=
  c7_concurrency_bound specCtx [] (initEngine specCtx []) Relation.ReflTransGen.refl
